import Mathlib

/-!
Verification development for the task-management CRUD scaffold
(Express/Mongoose backend, React Query frontend).

The backend data layer (`src/tasks/data.ts`), the Mongoose schema
(`src/database/index.ts`), the Zod validation schemas (`src/types/index.ts`)
and the route registration order (`src/tasks/routes.ts`) are embedded from
the source. The route handler bodies for POST `/tasks` and GET `/tasks/:id`,
the service operation `createTask` and the optimistic-update cache protocol
are TODO stubs in the repository; those parts are modelled from the spec,
each marked `Modelled from the spec:` in its doc comment.

Timestamps are modelled as natural numbers; identifiers as strings.
-/

namespace BagelTasks

/-- Task status, from the Mongoose schema
`enum: { values: ['open', 'done'] }` in `src/database/index.ts`.
`open` is a Lean keyword, hence the constructor name `open_`. -/
inductive Status where
  | open_ : Status
  | done : Status
deriving Repr, DecidableEq

/-- Wire representation of a status value (`'open'` / `'done'`). -/
def Status.toWire : Status → String
  | .open_ => "open"
  | .done => "done"

/-- Parse a wire status string into the enum, as the Mongoose enum validator
accepts exactly the strings `'open'` and `'done'`. -/
def parseStatus (s : String) : Option Status :=
  if s = "open" then some .open_
  else if s = "done" then some .done
  else none

/-- A persisted Task record (`ITask` in `src/types/index.ts`):
`_id`, `title`, `status`, plus the `timestamps: true` fields
`createdAt` and `updatedAt`. -/
structure Task where
  id : String
  title : String
  status : Status
  createdAt : Nat
  updatedAt : Nat
deriving Repr, DecidableEq

/-- ASCII whitespace, the fragment of the JavaScript whitespace class that
the repository's titles can contain. -/
def isJsWs (c : Char) : Bool :=
  c = ' ' || c = '\t' || c = '\n' || c = '\r'

/-- Drop trailing characters satisfying `p` from a character list. -/
def dropTrailing (p : Char → Bool) : List Char → List Char
  | [] => []
  | c :: cs =>
    match dropTrailing p cs with
    | [] => if p c then [] else [c]
    | ds => c :: ds

/-- Strip leading and trailing whitespace from a character list. -/
def trimChars (l : List Char) : List Char :=
  dropTrailing isJsWs (l.dropWhile isJsWs)

/-- JavaScript's `String.prototype.trim` (also the Mongoose `trim: true`
setter and Zod's `.trim()` transform): strip leading and trailing
whitespace. -/
def jsTrim (s : String) : String :=
  String.mk (trimChars s.data)

/-- A hexadecimal digit, as matched by `[0-9a-fA-F]`. -/
def isHexChar (c : Char) : Bool :=
  c.isDigit || ('a' ≤ c && c ≤ 'f') || ('A' ≤ c && c ≤ 'F')

/-- `Types.ObjectId.isValid` from mongoose (bson ≥ 5, as shipped with the
mongoose 7/8 line used alongside the repository's `mongo:7` container):
a string is a valid ObjectId exactly when it is a 24-character hex string. -/
def ObjectId.isValid (id : String) : Bool :=
  id.length == 24 && id.data.all isHexChar

/-- The `id` check of `TaskParamsSchema` in `src/types/index.ts`:
`z.string().regex(/^[0-9a-fA-F]\x7b24\x7d$/)`. -/
def TaskParamsSchema.check (id : String) : Bool :=
  id.length == 24 && id.data.all isHexChar

/-- Title validity as enforced by the Mongoose schema on write
(`trim: true` setter, then `minlength: 1`, `maxlength: 200`; `required`
also rejects the empty string): the trimmed title has 1–200 characters. -/
def mongooseTitleOk (title : String) : Bool :=
  1 ≤ (jsTrim title).length && (jsTrim title).length ≤ 200

/-- Store-level errors: `InvalidIdError` (thrown by `validateObjectId` in
`src/tasks/data.ts`) and Mongoose `ValidationError`. -/
inductive StoreError where
  | invalidId : StoreError
  | validation : StoreError
deriving Repr, DecidableEq

/-- The partial update payload `UpdateTaskInput`: optional `title`,
optional `status`, both carried as wire strings. -/
structure UpdateInput where
  title : Option String := none
  status : Option String := none
deriving Repr, DecidableEq

/-- The task collection state: the list of persisted records, in insertion
order. The storage engine keeps `_id` unique; operations below look up the
first (hence only) record with a given id. -/
abbrev Store := List Task

/-- The sort order of `{ createdAt: -1 }`: `a` comes no later than `b`
when `a` was created at the same time as `b` or more recently. -/
def newestFirst (a b : Task) : Prop :=
  b.createdAt ≤ a.createdAt

instance : DecidableRel newestFirst :=
  fun a b => Nat.decLe b.createdAt a.createdAt

instance : IsTotal Task newestFirst :=
  ⟨fun a b => le_total b.createdAt a.createdAt⟩

instance : IsTrans Task newestFirst :=
  ⟨fun _ _ _ hab hbc => le_trans hbc hab⟩

namespace TaskData

/-- `TaskData.findAll` in `src/tasks/data.ts`:
`Task.find({}).sort({ createdAt: -1 })` — all tasks, newest `createdAt`
first. -/
def findAll (s : Store) : List Task :=
  s.insertionSort newestFirst

/-- `TaskData.create` in `src/tasks/data.ts`: `new Task(data)` then
`task.save()`. The engine assigns the fresh id `newId`; the schema applies
the `trim` setter, validates the title, defaults `status` to `open`, and
`timestamps: true` sets `createdAt = updatedAt = now`. -/
def create (s : Store) (newId : String) (now : Nat) (title : String) :
    Except StoreError (Task × Store) :=
  if mongooseTitleOk title then
    let t : Task :=
      { id := newId, title := jsTrim title, status := .open_,
        createdAt := now, updatedAt := now }
    .ok (t, s ++ [t])
  else
    .error .validation

/-- `TaskData.findById` in `src/tasks/data.ts`: `validateObjectId(id)`
(throws `Error('Invalid task ID format')` when `Types.ObjectId.isValid`
rejects the id), then `Task.findById(id)` which resolves to the matching
document or `null`. -/
def findById (s : Store) (id : String) : Except StoreError (Option Task) :=
  if ObjectId.isValid id then
    .ok (s.find? (fun t => t.id == id))
  else
    .error .invalidId

/-- Apply a validated update to a single record: set the provided fields
(title already trimmed by the schema setter, status parsed), keep every
other field, and let `timestamps: true` refresh `updatedAt`. -/
def applyUpdate (t : Task) (newTitle : Option String) (newStatus : Option Status)
    (now : Nat) : Task :=
  { t with
    title := newTitle.getD t.title,
    status := newStatus.getD t.status,
    updatedAt := now }

/-- `TaskData.updateById` in `src/tasks/data.ts`: `validateObjectId(id)`,
then `Task.findByIdAndUpdate(id, updates, { new: true, runValidators: true })`.
Update validators re-check the title (trim setter, minlength/maxlength) and
the status enum; `null` is resolved when no record matches. -/
def updateById (s : Store) (id : String) (upd : UpdateInput) (now : Nat) :
    Except StoreError (Option Task × Store) :=
  if ObjectId.isValid id then
    match s.find? (fun t => t.id == id) with
    | none => .ok (none, s)
    | some t =>
      match upd.title with
      | some raw =>
        if mongooseTitleOk raw then
          match upd.status with
          | some st =>
            match parseStatus st with
            | some stv =>
              let t' := applyUpdate t (some (jsTrim raw)) (some stv) now
              .ok (some t', s.map (fun u => if u.id == id then t' else u))
            | none => .error .validation
          | none =>
            let t' := applyUpdate t (some (jsTrim raw)) none now
            .ok (some t', s.map (fun u => if u.id == id then t' else u))
        else .error .validation
      | none =>
        match upd.status with
        | some st =>
          match parseStatus st with
          | some stv =>
            let t' := applyUpdate t none (some stv) now
            .ok (some t', s.map (fun u => if u.id == id then t' else u))
          | none => .error .validation
        | none =>
          let t' := applyUpdate t none none now
          .ok (some t', s.map (fun u => if u.id == id then t' else u))
  else
    .error .invalidId

/-- `TaskData.deleteById` in `src/tasks/data.ts`: `validateObjectId(id)`,
then `Task.findByIdAndDelete(id)` — removes the matching document and
resolves to it, or resolves to `null` when none matches. -/
def deleteById (s : Store) (id : String) : Except StoreError (Option Task × Store) :=
  if ObjectId.isValid id then
    match s.find? (fun t => t.id == id) with
    | none => .ok (none, s)
    | some t => .ok (some t, s.eraseP (fun u => u.id == id))
  else
    .error .invalidId

/-- `TaskData.getStats` in `src/tasks/data.ts`: the aggregation
`$group: { _id: '$status', count: { $sum: 1 } }` projected to
`{ status, count }` — one entry per status value present in the
collection, with the number of documents in that status. -/
def getStats (s : Store) : List (String × Nat) :=
  let statuses := s.map (fun t => t.status.toWire)
  statuses.dedup.map (fun st => (st, statuses.count st))

/-- `TaskData.count` in `src/tasks/data.ts`: `Task.countDocuments()`. -/
def count (s : Store) : Nat :=
  s.length

end TaskData

/-- A store operation, as issued against `TaskData`: create, partial update,
or delete. -/
inductive StoreOp where
  | createOp (newId : String) (now : Nat) (title : String) : StoreOp
  | updateOp (id : String) (upd : UpdateInput) (now : Nat) : StoreOp
  | deleteOp (id : String) : StoreOp

/-- Run one store operation; a failed operation leaves the collection
unchanged (each write is atomic per record). -/
def applyOp (s : Store) : StoreOp → Store
  | .createOp newId now title =>
    match TaskData.create s newId now title with
    | .ok (_, s') => s'
    | .error _ => s
  | .updateOp id upd now =>
    match TaskData.updateById s id upd now with
    | .ok (_, s') => s'
    | .error _ => s
  | .deleteOp id =>
    match TaskData.deleteById s id with
    | .ok (_, s') => s'
    | .error _ => s

/-- Run a sequence of store operations from a starting collection state. -/
def applyOps (ops : List StoreOp) (s : Store) : Store :=
  ops.foldl applyOp s

/-- Service-level errors: the empty-title validation error plus the
store-level errors it propagates. -/
inductive ServiceError where
  | emptyTitle : ServiceError
  | store (e : StoreError) : ServiceError
deriving Repr, DecidableEq

namespace TaskServices

/-- Modelled from the spec: `TaskServices.createTask` in
`src/tasks/services.ts` is a TODO stub (it only throws
`'Not implemented yet'`). Per the spec, it trims the title, fails with the
empty-title validation error when the trimmed result is empty (persisting
nothing), and otherwise delegates to the store `create`. The pair returned
carries the (possibly updated) collection state. -/
def createTask (s : Store) (newId : String) (now : Nat) (title : String) :
    Except ServiceError Task × Store :=
  let trimmed := jsTrim title
  if trimmed = "" then
    (.error .emptyTitle, s)
  else
    match TaskData.create s newId now trimmed with
    | .ok (t, s') => (.ok t, s')
    | .error e => (.error (.store e), s)

end TaskServices

/-- The payload carried by the `data` field of the response envelope. -/
inductive ResponseData where
  | task (t : Task) : ResponseData
  | taskList (l : List Task) : ResponseData
  | stats (l : List (String × Nat)) : ResponseData
  | empty : ResponseData
deriving Repr, DecidableEq

/-- The HTTP response as the routes produce it: status code plus the
envelope fields `success` and `data`. -/
structure HttpResponse where
  status : Nat
  success : Bool
  data : ResponseData
deriving Repr, DecidableEq

/-- `CreateTaskSchema` in `src/types/index.ts`:
`z.object({ title: z.string().min(1).max(200).trim() })`. Zod runs the
chained checks in order, so `min`/`max` test the raw string's length and
the `trim` transform runs last. A missing or absent `title` fails the
object parse. -/
def CreateTaskSchema.parse (title : Option String) : Except String String :=
  match title with
  | none => .error "Title is required"
  | some raw =>
    if raw.length < 1 then .error "Title is required"
    else if 200 < raw.length then .error "Title cannot exceed 200 characters"
    else .ok (jsTrim raw)

/-- Modelled from the spec: the POST `/tasks` route handler in
`src/tasks/routes.ts` is a TODO stub (it answers 501). Per the spec and the
route's documented hints, it validates the body with
`CreateTaskSchema.parse`, calls the service `createTask`, answers 201 with
the created task on success, and 400 on any validation failure (the
`ZodError` branch, and the empty-title validation error, which the spec
maps with every validation-class error to 400). -/
def postTasks (s : Store) (newId : String) (now : Nat) (title : Option String) :
    HttpResponse × Store :=
  match CreateTaskSchema.parse title with
  | .error _ => ({ status := 400, success := false, data := .empty }, s)
  | .ok parsedTitle =>
    match TaskServices.createTask s newId now parsedTitle with
    | (.ok t, s') => ({ status := 201, success := true, data := .task t }, s')
    | (.error _, s') => ({ status := 400, success := false, data := .empty }, s')

/-- Modelled from the spec: the GET `/tasks/:id` route handler in
`src/tasks/routes.ts` is a TODO stub (it answers 501). Per the spec and the
route's documented hints, it validates the `id` param with
`TaskParamsSchema` (400 with `success: false` on failure), then looks the
task up: 200 with the task, or 404 when the store reports no record. -/
def getTaskByIdRoute (s : Store) (id : String) : HttpResponse :=
  if TaskParamsSchema.check id then
    match TaskData.findById s id with
    | .ok (some t) => { status := 200, success := true, data := .task t }
    | .ok none => { status := 404, success := false, data := .empty }
    | .error _ => { status := 400, success := false, data := .empty }
  else
    { status := 400, success := false, data := .empty }

/-- The GET routes of the task router, named after their registration in
`src/tasks/routes.ts`. -/
inductive GetRoute where
  | statsRoute : GetRoute
  | listRoute : GetRoute
  | byIdRoute : GetRoute
deriving Repr, DecidableEq

/-- Whether a GET route's path pattern matches a request path, given as the
segments after `/api/tasks`: `'/stats'` matches exactly the segment
`stats`, `'/'` matches the empty path, and `'/:id'` matches any single
segment. -/
def GetRoute.matchesPath : GetRoute → List String → Bool
  | .statsRoute, [seg] => seg == "stats"
  | .listRoute, [] => true
  | .byIdRoute, [_] => true
  | _, _ => false

/-- The GET routes in their registration order in `src/tasks/routes.ts`:
`router.get('/stats')` (line 18) before `router.get('/')` (line 39) before
`router.get('/:id')` (line 95). -/
def getRegistrationOrder : List GetRoute :=
  [.statsRoute, .listRoute, .byIdRoute]

/-- Express dispatch for GET requests on the task router: the first
registered route whose pattern matches the path handles the request. -/
def dispatchGet (path : List String) : Option GetRoute :=
  getRegistrationOrder.find? (fun r => r.matchesPath path)

/-- The full GET pipeline on the task router: dispatch the path, then run
the matched handler (`getTaskStats` / `getAllTasks` are implemented in the
source and answer 200; the by-id handler is `getTaskByIdRoute`). An
unmatched path falls through to the app's 404 handler. -/
def handleGet (s : Store) (path : List String) : HttpResponse :=
  match dispatchGet path with
  | some .statsRoute => { status := 200, success := true, data := .stats (TaskData.getStats s) }
  | some .listRoute => { status := 200, success := true, data := .taskList (TaskData.findAll s) }
  | some .byIdRoute =>
    match path with
    | [id] => getTaskByIdRoute s id
    | _ => { status := 404, success := false, data := .empty }
  | none => { status := 404, success := false, data := .empty }

/-- The client cache's view of one create mutation: the cached task list
plus the snapshot recorded for rollback while the mutation is in flight. -/
structure CacheState where
  list : List Task
  snapshot : Option (List Task)
deriving Repr, DecidableEq

/-- Events in the optimistic-create lifecycle: the synchronous optimistic
apply (`onMutate`), and the two resolutions (`onError` rollback,
`onSuccess` reconciliation replacing the provisional entry). -/
inductive CreateEvent where
  | issue (provisional : Task) : CreateEvent
  | resolveFailure : CreateEvent
  | resolveSuccess (server : Task) : CreateEvent

/-- Modelled from the spec: the optimistic-update logic of `useCreateTask`
in `src/hooks/useTasks.ts` is a TODO stub (the hook only refetches on
success). Per the spec's cache state machine and the README's
`onMutate`/`onError` pattern: issuing prepends the provisional task and
snapshots the previous list; failure restores the snapshot exactly;
success replaces the provisional entry with the server's task. -/
def cacheStep (st : CacheState) : CreateEvent → CacheState
  | .issue p => { list := p :: st.list, snapshot := some st.list }
  | .resolveFailure =>
    match st.snapshot with
    | some snap => { list := snap, snapshot := none }
    | none => { st with snapshot := none }
  | .resolveSuccess server =>
    match st.list with
    | _ :: rest => { list := server :: rest, snapshot := none }
    | [] => { list := [server], snapshot := none }

/-- Run the create-mutation lifecycle from an initial cached list. -/
def cacheRun (l0 : List Task) (events : List CreateEvent) : CacheState :=
  events.foldl cacheStep { list := l0, snapshot := none }

/-- The update payload's field values pass the schema's write validation:
any provided title trims to 1–200 characters, any provided status is one
of the two enum strings. -/
def UpdateInput.valid (upd : UpdateInput) : Prop :=
  (∀ raw, upd.title = some raw → mongooseTitleOk raw = true) ∧
  (∀ st, upd.status = some st → (parseStatus st).isSome = true)

/-- A 201-character title (one leading space, then 200 letters) whose
trimmed form has exactly 200 characters. -/
def longRawTitle : String :=
  String.mk (' ' :: List.replicate 200 'a')

/-! ### Helper lemmas about trimming -/

theorem dropWhile_dropWhile (p : Char → Bool) (l : List Char) :
    (l.dropWhile p).dropWhile p = l.dropWhile p := by
  induction l with
  | nil => rfl
  | cons c cs ih =>
    by_cases h : p c
    · simpa [List.dropWhile_cons, h] using ih
    · simp [List.dropWhile_cons, h]

theorem dropTrailing_dropTrailing (p : Char → Bool) (l : List Char) :
    dropTrailing p (dropTrailing p l) = dropTrailing p l := by
  induction l with
  | nil => rfl
  | cons c cs ih =>
    cases hds : dropTrailing p cs with
    | nil =>
      by_cases h : p c
      · simp [dropTrailing, hds, h]
      · simp [dropTrailing, hds, h]
    | cons d ds =>
      have h1 : dropTrailing p (c :: cs) = c :: d :: ds := by
        rw [dropTrailing, hds]
      have h2 : dropTrailing p (d :: ds) = d :: ds := by
        rw [← hds, ih, hds]
      rw [h1, dropTrailing, h2]

theorem dropTrailing_shape (p : Char → Bool) (c : Char) (cs : List Char) :
    dropTrailing p (c :: cs) = [] ∨ ∃ es, dropTrailing p (c :: cs) = c :: es := by
  cases hds : dropTrailing p cs with
  | nil =>
    by_cases h : p c
    · left; simp [dropTrailing, hds, h]
    · right; exact ⟨[], by simp [dropTrailing, hds, h]⟩
  | cons d ds =>
    right; exact ⟨d :: ds, by rw [dropTrailing, hds]⟩

theorem dropWhile_dropTrailing (p : Char → Bool) (l : List Char)
    (hl : l.dropWhile p = l) :
    (dropTrailing p l).dropWhile p = dropTrailing p l := by
  cases l with
  | nil => rfl
  | cons c cs =>
    have hc : p c = false := by
      by_cases hpc : p c
      · rw [List.dropWhile_cons, if_pos hpc] at hl
        have hlen := (List.dropWhile_sublist (p := p) (l := cs)).length_le
        rw [hl] at hlen
        simp at hlen
      · simpa using hpc
    rcases dropTrailing_shape p c cs with h | ⟨es, h⟩
    · rw [h]; rfl
    · rw [h, List.dropWhile_cons, if_neg (by simp [hc])]

theorem trimChars_idem (l : List Char) : trimChars (trimChars l) = trimChars l := by
  unfold trimChars
  rw [dropWhile_dropTrailing _ _ (dropWhile_dropWhile _ l), dropTrailing_dropTrailing]

theorem jsTrim_idem (s : String) : jsTrim (jsTrim s) = jsTrim s := by
  show String.mk (trimChars (trimChars s.data)) = String.mk (trimChars s.data)
  rw [trimChars_idem]

theorem dropTrailing_length_le (p : Char → Bool) (l : List Char) :
    (dropTrailing p l).length ≤ l.length := by
  induction l with
  | nil => simp [dropTrailing]
  | cons c cs ih =>
    cases hds : dropTrailing p cs with
    | nil =>
      by_cases h : p c <;> simp [dropTrailing, hds, h]
    | cons d ds =>
      have h1 : dropTrailing p (c :: cs) = c :: d :: ds := by
        rw [dropTrailing, hds]
      rw [hds] at ih
      rw [h1]
      simpa using ih

theorem trimChars_length_le (l : List Char) : (trimChars l).length ≤ l.length :=
  le_trans (dropTrailing_length_le _ _) (List.dropWhile_sublist (p := isJsWs)).length_le

theorem jsTrim_length_le (s : String) : (jsTrim s).length ≤ s.length :=
  trimChars_length_le s.data

theorem one_le_length_of_ne_empty (t : String) (h : t ≠ "") : 1 ≤ t.length := by
  cases t with
  | mk data =>
    cases data with
    | nil => exact absurd rfl h
    | cons c cs => simp [String.length]

/-- The per-status counts of `getStats` sum to the record count, for any
collection state. -/
theorem getStats_sum_length (s : Store) :
    ((TaskData.getStats s).map Prod.snd).sum = TaskData.count s := by
  unfold TaskData.getStats TaskData.count
  simp only [List.map_map]
  have h := List.sum_map_count_dedup_eq_length (s.map (fun t => t.status.toWire))
  simpa [Function.comp] using h

/-! ### Claim theorems -/

set_option maxRecDepth 4000 in
/-- C1 counterexample: `longRawTitle` has a valid title in the claim's
sense — 200 characters after trimming — yet POST `/tasks` answers 400, not
201, because `CreateTaskSchema` chains `.min(1).max(200)` before `.trim()`
and therefore length-checks the raw string. -/
theorem postTasks_valid_trimmed_title_refuted :
    1 ≤ (jsTrim longRawTitle).length ∧ (jsTrim longRawTitle).length ≤ 200 ∧
    (postTasks [] "aaaaaaaaaaaaaaaaaaaaaaaa" 0 (some longRawTitle)).1.status
      = 400 := by
  refine ⟨by decide, by decide, by decide⟩

/-- C1 (amended): for every create request whose title has 1–200
characters before trimming and is nonempty after trimming, POST `/tasks`
answers 201 with the created task (trimmed title, status `open`); for a
missing title, a title that is empty after trimming, or a title longer
than 200 characters before trimming, it answers 400. -/
theorem postTasks_amended (s : Store) (newId : String) (now : Nat) :
    (∀ raw : String, 1 ≤ raw.length → raw.length ≤ 200 → jsTrim raw ≠ "" →
      postTasks s newId now (some raw) =
        ({ status := 201, success := true,
           data := .task ⟨newId, jsTrim raw, .open_, now, now⟩ },
         s ++ [⟨newId, jsTrim raw, .open_, now, now⟩])) ∧
    (∀ raw : String, jsTrim raw = "" ∨ 200 < raw.length →
      (postTasks s newId now (some raw)).1.status = 400 ∧
      (postTasks s newId now (some raw)).1.success = false) ∧
    ((postTasks s newId now none).1.status = 400 ∧
     (postTasks s newId now none).1.success = false) := by
  refine ⟨?_, ?_, by constructor <;> rfl⟩
  · intro raw h1 h2 hne
    have hlt1 : ¬ raw.length < 1 := by omega
    have hlt2 : ¬ 200 < raw.length := by omega
    have hparse : CreateTaskSchema.parse (some raw) = .ok (jsTrim raw) := by
      simp [CreateTaskSchema.parse, hlt1, hlt2]
    have hok : mongooseTitleOk (jsTrim raw) = true := by
      unfold mongooseTitleOk
      rw [jsTrim_idem]
      have ha := one_le_length_of_ne_empty _ hne
      have hb := jsTrim_length_le raw
      simp only [Bool.and_eq_true, decide_eq_true_eq]
      omega
    have hcreate : TaskData.create s newId now (jsTrim raw) =
        .ok (⟨newId, jsTrim raw, .open_, now, now⟩,
             s ++ [⟨newId, jsTrim raw, .open_, now, now⟩]) := by
      simp [TaskData.create, hok, jsTrim_idem]
    have hservice : TaskServices.createTask s newId now (jsTrim raw) =
        (.ok ⟨newId, jsTrim raw, .open_, now, now⟩,
         s ++ [⟨newId, jsTrim raw, .open_, now, now⟩]) := by
      simp only [TaskServices.createTask, jsTrim_idem, hne, if_false, hcreate]
    simp [postTasks, hparse, hservice]
  · intro raw hcase
    by_cases hl1 : raw.length < 1
    · have hparse : CreateTaskSchema.parse (some raw) =
          .error "Title is required" := by
        simp [CreateTaskSchema.parse, hl1]
      constructor <;> simp [postTasks, hparse]
    · rcases hcase with hempty | hlong
      · by_cases hl2 : 200 < raw.length
        · have hparse : CreateTaskSchema.parse (some raw) =
              .error "Title cannot exceed 200 characters" := by
            simp [CreateTaskSchema.parse, hl1, hl2]
          constructor <;> simp [postTasks, hparse]
        · have hparse : CreateTaskSchema.parse (some raw) = .ok (jsTrim raw) := by
            simp [CreateTaskSchema.parse, hl1, hl2]
          have hservice : TaskServices.createTask s newId now (jsTrim raw) =
              (.error .emptyTitle, s) := by
            have h0 : jsTrim (jsTrim raw) = "" := by rw [jsTrim_idem, hempty]
            simp [TaskServices.createTask, h0]
          constructor <;> simp [postTasks, hparse, hservice]
      · have hparse : CreateTaskSchema.parse (some raw) =
            .error "Title cannot exceed 200 characters" := by
          simp [CreateTaskSchema.parse, hl1, hlong]
        constructor <;> simp [postTasks, hparse]

/-- Witness for C1 (amended): `POST ("  Buy milk  ")` answers 201 with
the trimmed title and status `open`; a whitespace-only title answers
400. -/
theorem postTasks_amended_witness :
    postTasks [] "aaaaaaaaaaaaaaaaaaaaaaaa" 0 (some "  Buy milk  ") =
      ({ status := 201, success := true,
         data := .task ⟨"aaaaaaaaaaaaaaaaaaaaaaaa", "Buy milk", .open_, 0, 0⟩ },
       [⟨"aaaaaaaaaaaaaaaaaaaaaaaa", "Buy milk", .open_, 0, 0⟩]) ∧
    (postTasks [] "aaaaaaaaaaaaaaaaaaaaaaaa" 0 (some "   ")).1.status = 400 := by
  constructor
  · exact (postTasks_amended [] "aaaaaaaaaaaaaaaaaaaaaaaa" 0).1 "  Buy milk  "
      (by decide) (by decide) (by decide)
  · exact ((postTasks_amended [] "aaaaaaaaaaaaaaaaaaaaaaaa" 0).2.1 "   "
      (.inl (by decide))).1

/-- C2: issuing a create through the client cache immediately shows the
provisional task at the front of the cached list, before the network call
resolves; if the server reports failure, the subsequent read shows exactly
the pre-mutation list (rollback restores the snapshot). -/
theorem optimistic_create_then_rollback (l0 : List Task) (p : Task) :
    (cacheRun l0 [.issue p]).list = p :: l0 ∧
    (cacheRun l0 [.issue p, .resolveFailure]).list = l0 := by
  constructor <;> rfl

/-- C3: the service `createTask` trims the title; when the trimmed result
is empty it fails with the empty-title validation error and the collection
is unchanged (no record persisted); otherwise it delegates to the store
`create` and returns the created task. -/
theorem createTask_trims_and_delegates (s : Store) (newId : String) (now : Nat)
    (title : String) :
    (jsTrim title = "" →
      TaskServices.createTask s newId now title = (.error .emptyTitle, s)) ∧
    (∀ t s', jsTrim title ≠ "" →
      TaskData.create s newId now (jsTrim title) = .ok (t, s') →
      TaskServices.createTask s newId now title = (.ok t, s')) := by
  constructor
  · intro h
    simp [TaskServices.createTask, h]
  · intro t s' hne hcr
    simp [TaskServices.createTask, hne, hcr]

/-- Witness for C3 at concrete inputs: a whitespace-only title fails with
the empty-title error and persists nothing; `" hi "` is trimmed and
persisted. -/
theorem createTask_trims_and_delegates_witness :
    TaskServices.createTask [] "aaaaaaaaaaaaaaaaaaaaaaaa" 3 "   " =
      (.error .emptyTitle, []) ∧
    TaskServices.createTask [] "aaaaaaaaaaaaaaaaaaaaaaaa" 3 " hi " =
      (.ok ⟨"aaaaaaaaaaaaaaaaaaaaaaaa", "hi", .open_, 3, 3⟩,
       [⟨"aaaaaaaaaaaaaaaaaaaaaaaa", "hi", .open_, 3, 3⟩]) :=
  ⟨(createTask_trims_and_delegates [] "aaaaaaaaaaaaaaaaaaaaaaaa" 3 "   ").1 rfl,
   (createTask_trims_and_delegates [] "aaaaaaaaaaaaaaaaaaaaaaaa" 3 " hi ").2
     _ _ (by decide) rfl⟩

/-- C4: a GET `/tasks/:id` request whose id path segment is not a
well-formed identifier answers 400 with `success: false`. -/
theorem getTaskById_malformed_400 (s : Store) (id : String)
    (h : TaskParamsSchema.check id = false) :
    (getTaskByIdRoute s id).status = 400 ∧
    (getTaskByIdRoute s id).success = false := by
  simp [getTaskByIdRoute, h]

/-- Witness for C4: `GET /tasks/not-an-id` answers 400, `success: false`. -/
theorem getTaskById_malformed_400_witness :
    (getTaskByIdRoute [] "not-an-id").status = 400 ∧
    (getTaskByIdRoute [] "not-an-id").success = false :=
  getTaskById_malformed_400 [] "not-an-id" (by decide)

/-- C5: the store `findById` fails with `InvalidIdError` for every id that
is not a 24-character hex identifier, and this failure is distinct from the
NotFound result (`ok none`) returned for a well-formed id with no matching
record. -/
theorem findById_invalid_id_distinct (s : Store) (idBad idGood : String)
    (hbad : ObjectId.isValid idBad = false)
    (hgood : ObjectId.isValid idGood = true)
    (hmiss : ∀ t ∈ s, t.id ≠ idGood) :
    TaskData.findById s idBad = .error .invalidId ∧
    TaskData.findById s idGood = .ok none ∧
    (Except.error StoreError.invalidId : Except StoreError (Option Task)) ≠
      .ok none := by
  refine ⟨?_, ?_, by simp⟩
  · simp [TaskData.findById, hbad]
  · simp only [TaskData.findById, hgood, if_true]
    congr 1
    rw [List.find?_eq_none]
    intro t ht
    simpa using hmiss t ht

/-- Witness for C5: `not-an-id` is rejected as invalid; a well-formed hex
id misses in the empty collection with the distinct NotFound result. -/
theorem findById_invalid_id_distinct_witness :
    TaskData.findById [] "not-an-id" = .error .invalidId ∧
    TaskData.findById [] "aaaaaaaaaaaaaaaaaaaaaaaa" = .ok none ∧
    (Except.error StoreError.invalidId : Except StoreError (Option Task)) ≠
      .ok none :=
  findById_invalid_id_distinct [] "not-an-id" "aaaaaaaaaaaaaaaaaaaaaaaa"
    (by decide) (by decide) (by simp)

/-- C6: for an existing record and a partial update carrying only a title
and/or a status, `updateById` applies exactly the provided fields — the
id and `createdAt` of the record are unchanged, an absent field keeps its
old value — refreshes `updatedAt`, and re-validates the title and status
on write, failing with `ValidationError` for invalid field values. -/
theorem updateById_applies_exactly_provided (s : Store) (id : String) (t : Task)
    (upd : UpdateInput) (now : Nat)
    (hid : ObjectId.isValid id = true)
    (hfind : s.find? (fun u => u.id == id) = some t) :
    (upd.valid →
      TaskData.updateById s id upd now =
        .ok (some ⟨t.id, (upd.title.map jsTrim).getD t.title,
                   (upd.status.bind parseStatus).getD t.status,
                   t.createdAt, now⟩,
             s.map (fun u => if u.id == id then
               ⟨t.id, (upd.title.map jsTrim).getD t.title,
                (upd.status.bind parseStatus).getD t.status,
                t.createdAt, now⟩ else u))) ∧
    (¬ upd.valid → TaskData.updateById s id upd now = .error .validation) := by
  have hidt : t.id = id := by
    have := List.find?_some hfind
    simpa using this
  constructor
  · rintro ⟨hT, hS⟩
    cases hTitle : upd.title with
    | none =>
      cases hStatus : upd.status with
      | none =>
        simp [TaskData.updateById, hid, hfind, hTitle, hStatus,
          TaskData.applyUpdate]
      | some st =>
        obtain ⟨stv, hstv⟩ := Option.isSome_iff_exists.mp (hS st hStatus)
        simp [TaskData.updateById, hid, hfind, hTitle, hStatus, hstv,
          TaskData.applyUpdate]
    | some raw =>
      have hok := hT raw hTitle
      cases hStatus : upd.status with
      | none =>
        simp [TaskData.updateById, hid, hfind, hTitle, hStatus, hok,
          TaskData.applyUpdate]
      | some st =>
        obtain ⟨stv, hstv⟩ := Option.isSome_iff_exists.mp (hS st hStatus)
        simp [TaskData.updateById, hid, hfind, hTitle, hStatus, hok, hstv,
          TaskData.applyUpdate]
  · intro hnv
    rcases not_and_or.mp hnv with h | h
    · push_neg at h
      obtain ⟨raw, hTitle, hbadT⟩ := h
      have hbad : mongooseTitleOk raw = false := by simpa using hbadT
      simp [TaskData.updateById, hid, hfind, hTitle, hbad]
    · push_neg at h
      obtain ⟨st, hStatus, hbadS⟩ := h
      have hnone : parseStatus st = none := by
        cases hp : parseStatus st with
        | none => rfl
        | some v => exact absurd (by simp [hp]) hbadS
      cases hTitle : upd.title with
      | none =>
        simp [TaskData.updateById, hid, hfind, hTitle, hStatus, hnone]
      | some raw =>
        cases hok : mongooseTitleOk raw with
        | false => simp [TaskData.updateById, hid, hfind, hTitle, hok]
        | true =>
          simp [TaskData.updateById, hid, hfind, hTitle, hStatus, hok, hnone]

/-- Witness for C6: a concrete update providing both fields applies them
(trimmed title, refreshed `updatedAt`, unchanged id and `createdAt`), and
an update carrying a bogus status fails with `ValidationError`. -/
theorem updateById_applies_exactly_provided_witness :
    TaskData.updateById [⟨"aaaaaaaaaaaaaaaaaaaaaaaa", "Old", .open_, 1, 1⟩]
      "aaaaaaaaaaaaaaaaaaaaaaaa" ⟨some "  New  ", some "done"⟩ 5 =
      .ok (some ⟨"aaaaaaaaaaaaaaaaaaaaaaaa", "New", .done, 1, 5⟩,
           [⟨"aaaaaaaaaaaaaaaaaaaaaaaa", "New", .done, 1, 5⟩]) ∧
    TaskData.updateById [⟨"aaaaaaaaaaaaaaaaaaaaaaaa", "Old", .open_, 1, 1⟩]
      "aaaaaaaaaaaaaaaaaaaaaaaa" ⟨none, some "bogus"⟩ 5 = .error .validation := by
  constructor
  · have h := (updateById_applies_exactly_provided
      [⟨"aaaaaaaaaaaaaaaaaaaaaaaa", "Old", .open_, 1, 1⟩]
      "aaaaaaaaaaaaaaaaaaaaaaaa" ⟨"aaaaaaaaaaaaaaaaaaaaaaaa", "Old", .open_, 1, 1⟩
      ⟨some "  New  ", some "done"⟩ 5 (by decide) rfl).1
      ⟨by intro raw hr; cases hr; decide, by intro st hs; cases hs; decide⟩
    exact h
  · exact (updateById_applies_exactly_provided
      [⟨"aaaaaaaaaaaaaaaaaaaaaaaa", "Old", .open_, 1, 1⟩]
      "aaaaaaaaaaaaaaaaaaaaaaaa" ⟨"aaaaaaaaaaaaaaaaaaaaaaaa", "Old", .open_, 1, 1⟩
      ⟨none, some "bogus"⟩ 5 (by decide) rfl).2
      (by rintro ⟨-, h2⟩; exact absurd (h2 "bogus" rfl) (by decide))

/-- C7: `findAll` returns the tasks ordered by `createdAt` newest first (a
permutation of the collection), and returns the empty sequence on the
empty collection rather than failing. -/
theorem findAll_newest_first_total (s : Store) :
    List.Pairwise newestFirst (TaskData.findAll s) ∧
    (TaskData.findAll s).Perm s ∧
    TaskData.findAll ([] : Store) = [] :=
  ⟨List.sorted_insertionSort newestFirst s, List.perm_insertionSort newestFirst s,
   rfl⟩

/-- C8: for every collection state reachable by a sequence of
create/update/delete store operations, the per-status counts of `getStats`
sum to the total record count of `count`. -/
theorem getStats_sum_eq_count (ops : List StoreOp) :
    ((TaskData.getStats (applyOps ops [])).map Prod.snd).sum =
      TaskData.count (applyOps ops []) :=
  getStats_sum_length (applyOps ops [])

/-- C9: a task's status is one of the two enum values `open` and `done`
(no other value is representable in the `Status` type), and a task created
without an explicit status is created with status `open`. -/
theorem status_two_valued_and_default_open :
    (∀ st : Status, st = .open_ ∨ st = .done) ∧
    (∀ (s : Store) (newId : String) (now : Nat) (title : String)
       (t : Task) (s' : Store),
      TaskData.create s newId now title = .ok (t, s') → t.status = .open_) := by
  constructor
  · intro st
    cases st
    · exact .inl rfl
    · exact .inr rfl
  · intro s newId now title t s' h
    by_cases hv : mongooseTitleOk title
    · simp [TaskData.create, hv] at h
      obtain ⟨ht, -⟩ := h
      rw [← ht]
    · simp [TaskData.create, hv] at h

/-- Witness for C9: both enum values are covered, and a concrete create
yields status `open`. -/
theorem status_two_valued_and_default_open_witness :
    (Status.done = .open_ ∨ Status.done = .done) ∧
    (⟨"aaaaaaaaaaaaaaaaaaaaaaaa", "hi", .open_, 0, 0⟩ : Task).status = .open_ :=
  ⟨status_two_valued_and_default_open.1 .done,
   status_two_valued_and_default_open.2 [] "aaaaaaaaaaaaaaaaaaaaaaaa" 0 "hi"
     ⟨"aaaaaaaaaaaaaaaaaaaaaaaa", "hi", .open_, 0, 0⟩
     [⟨"aaaaaaaaaaaaaaaaaaaaaaaa", "hi", .open_, 0, 0⟩] rfl⟩

/-- C10: because `/stats` is registered before `/:id`, a GET request for
the path segment `stats` is dispatched to the statistics route, not the
by-id route, and the pipeline answers 200 with the statistics — never an
invalid-id failure. -/
theorem stats_route_never_treated_as_id (s : Store) :
    dispatchGet ["stats"] = some .statsRoute ∧
    handleGet s ["stats"] =
      { status := 200, success := true, data := .stats (TaskData.getStats s) } := by
  constructor <;> rfl

end BagelTasks
